import Mathlib

/-!
# Verification of the gate4ai configuration store and task protocol claims

This file gives a shallow embedding of the configuration store
(`shared/config/yaml.go` and the divergent watcher variant of the same file)
and of the task-protocol contract, and proves or refutes the spec claims
about them.

Modelling conventions:
* Go maps are embedded as association lists (`List (String × α)`) with
  insert-overwrites semantics (`alistInsert`); map iteration is the list
  order of the embedded config.
* File I/O and YAML deserialization are black boxes: `Update` receives the
  outcome of `os.ReadFile` + `yaml.Unmarshal` as an `Except ConfigError`
  value, exactly mirroring the two early-return failure points of the code.
* `sync.RWMutex` and the logger are dropped in the sequential embeddings;
  the concurrency claim (C2) is handled by a dedicated step-relation model.
-/

/-- Errors surfaced by the configuration store: read failure, parse failure,
and `ErrNotFound` (declared in the config package, used by the lookups in
`yaml.go`). -/
inductive ConfigError where
  | readError (msg : String)
  | parseError (msg : String)
  | notFound
deriving DecidableEq, Repr

/-- The `AuthorizationType` enum of the config package, with the Go constant
names (`AuthorizedUsersOnly`, `NotAuthorizedToMarkedMethods`,
`NotAuthorizedEverywhere`). The spec calls these `RequireAuthEverywhere`,
`RequireAuthForMarkedMethods` and `NoAuthRequired` respectively. -/
inductive AuthorizationType where
  | AuthorizedUsersOnly
  | NotAuthorizedToMarkedMethods
  | NotAuthorizedEverywhere
deriving DecidableEq, Repr

/-- The `config.Backend`: a backend connection descriptor `{URL, Bearer}`. -/
structure Backend where
  url : String
  bearer : String
deriving DecidableEq, Repr

/-- Association-list lookup, embedding Go map indexing `m[k]`. -/
def alistLookup {κ α : Type} [DecidableEq κ] (m : List (κ × α)) (k : κ) :
    Option α :=
  match m with
  | [] => none
  | (k2, v) :: rest => if k2 = k then some v else alistLookup rest k

/-- Association-list insert with overwrite, embedding Go map assignment
`m[k] = v`. -/
def alistInsert {κ α : Type} [DecidableEq κ] (m : List (κ × α)) (k : κ) (v : α) :
    List (κ × α) :=
  match m with
  | [] => [(k, v)]
  | (k2, w) :: rest =>
      if k2 = k then (k, v) :: rest else (k2, w) :: alistInsert rest k v

/-- The `a2aSchema.AgentAuthentication` (external A2A schema package; carried
through the store opaquely, its contents never inspected by `yaml.go`). -/
structure AgentAuthentication where
  schemes : List String
  credentials : Option String
deriving DecidableEq, Repr

/-- The `a2aSchema.AgentProvider` (external A2A schema package). -/
structure AgentProvider where
  organization : String
  url : Option String
deriving DecidableEq, Repr

/-- The `ssl` block of the YAML document (`yaml.go` struct `yamlConfig`). -/
structure SSLSection where
  enabled : Bool
  mode : String
  certFile : String
  keyFile : String
  acmeDomains : List String
  acmeEmail : String
  acmeCacheDir : String
deriving DecidableEq, Repr

/-- The optional `a2a` block of the YAML document (`yaml.go`). -/
structure A2ASection where
  name : String
  description : Option String
  version : String
  documentationURL : Option String
  providerOrg : Option String
  providerURL : Option String
  defaultInputModes : List String
  defaultOutputModes : List String
  authentication : Option AgentAuthentication
deriving DecidableEq, Repr

/-- The `server` block of the YAML document (`yaml.go`). -/
structure ServerSection where
  address : String
  name : String
  version : String
  logLevel : String
  discoveringHandlerPath : String
  frontendAddress : String
  authorization : String
  ssl : SSLSection
  a2a : Option A2ASection
deriving DecidableEq, Repr

/-- One entry of the `users` map: credential hashes and subscribed slugs. -/
structure UserEntry where
  keys : List String
  subscribes : List String
deriving DecidableEq, Repr

/-- The deserialized YAML document of `yaml.go` (`type yamlConfig struct`). -/
structure YamlDoc where
  server : ServerSection
  users : List (String × UserEntry)
  backends : List (String × Backend)
deriving DecidableEq, Repr

/-- The live state of `config.YamlConfig` from `shared/config/yaml.go`
(the variant with SSL/A2A fields and no watcher). The `configPath`, logger
and mutex are outside the pure state. -/
structure YamlConfig where
  serverAddress : String
  serverName : String
  serverVersion : String
  logLevel : String
  DiscoveringHandlerPathValue : String
  frontendAddressValue : String
  authorizationType : AuthorizationType
  userKeyHashes : List (String × String)
  userParams : List (String × List (String × String))
  userSubscribes : List (String × List String)
  backends : List (String × Backend)
  sslEnabled : Bool
  sslMode : String
  sslCertFile : String
  sslKeyFile : String
  sslAcmeDomains : List String
  sslAcmeEmail : String
  sslAcmeCacheDir : String
  a2aAgentNameValue : String
  a2aAgentDescriptionValue : Option String
  a2aProviderOrgValue : Option String
  a2aProviderURLValue : Option String
  a2aAgentVersionValue : String
  a2aDocumentationURLValue : Option String
  a2aDefaultInputModesValue : List String
  a2aDefaultOutputModesValue : List String
  a2aAuthenticationValue : Option AgentAuthentication
deriving DecidableEq, Repr

/-- Go `strings.ToLower`, modelled character-by-character (the configuration
strings compared against are all ASCII, where Go and Unicode lowercasing
agree with `Char.toLower`). -/
def asciiToLower (s : String) : String :=
  String.mk (s.data.map Char.toLower)

/-- The authorization switch of `YamlConfig.Update` in `yaml.go`
(lines 153-162): `switch strings.ToLower(yamlCfg.Server.Authorization)`,
written as the equivalent comparison chain. -/
def parseAuthorization (s : String) : AuthorizationType :=
  let l := asciiToLower s
  if l = "users_only" then AuthorizationType.AuthorizedUsersOnly
  else if l = "marked_methods" then AuthorizationType.NotAuthorizedToMarkedMethods
  else if l = "none" then AuthorizationType.NotAuthorizedEverywhere
  else AuthorizationType.AuthorizedUsersOnly

/-- Users-section processing of `YamlConfig.Update` (`yaml.go` lines
205-214): `newUserKeyHashes[keyHash] = userID` for every key of every
user. -/
def buildUserKeyHashes (users : List (String × UserEntry)) :
    List (String × String) :=
  users.foldl
    (fun acc p => p.2.keys.foldl (fun acc2 keyHash => alistInsert acc2 keyHash p.1) acc)
    []

/-- Users-section processing: `newUserSubscribes[userID]` is a copy of the
subscribes slice, set only when `len(user.Subscribes) > 0`. -/
def buildUserSubscribes (users : List (String × UserEntry)) :
    List (String × List String) :=
  users.foldl
    (fun acc p =>
      if p.2.subscribes.length > 0 then alistInsert acc p.1 p.2.subscribes else acc)
    []

/-- Backends-section processing of `YamlConfig.Update` (`yaml.go` lines
220-224): rebuilds the slug→descriptor map wholesale. -/
def buildBackends (bs : List (String × Backend)) : List (String × Backend) :=
  bs.foldl (fun acc p => alistInsert acc p.1 (Backend.mk p.2.url p.2.bearer)) []

/-- The `YamlConfig.Update` from `shared/config/yaml.go` (lines 128-227).
The `src` argument is the combined outcome of `os.ReadFile` and
`yaml.Unmarshal`: the code returns the error before touching any field when
either fails, and otherwise assigns every section in order. Returns the new
state and the returned `error` value. -/
def YamlConfig.update (c : YamlConfig) (src : Except ConfigError YamlDoc) :
    YamlConfig × Option ConfigError :=
  match src with
  | Except.error e => (c, some e)
  | Except.ok y =>
      let sslModeLower := asciiToLower y.server.ssl.mode
      ({ serverAddress := y.server.address
         serverName := y.server.name
         serverVersion := y.server.version
         logLevel := y.server.logLevel
         DiscoveringHandlerPathValue := y.server.discoveringHandlerPath
         frontendAddressValue := y.server.frontendAddress
         authorizationType := parseAuthorization y.server.authorization
         sslEnabled := y.server.ssl.enabled
         sslMode := if sslModeLower ≠ "acme" then "manual" else sslModeLower
         sslCertFile := y.server.ssl.certFile
         sslKeyFile := y.server.ssl.keyFile
         sslAcmeDomains := y.server.ssl.acmeDomains
         sslAcmeEmail := y.server.ssl.acmeEmail
         sslAcmeCacheDir :=
           if y.server.ssl.acmeCacheDir = "" then "./.autocert-cache"
           else y.server.ssl.acmeCacheDir
         a2aAgentNameValue := match y.server.a2a with
           | some a => a.name
           | none => ""
         a2aAgentDescriptionValue := match y.server.a2a with
           | some a => a.description
           | none => none
         a2aAgentVersionValue := match y.server.a2a with
           | some a => a.version
           | none => ""
         a2aDocumentationURLValue := match y.server.a2a with
           | some a => a.documentationURL
           | none => none
         a2aProviderOrgValue := match y.server.a2a with
           | some a => a.providerOrg
           | none => none
         a2aProviderURLValue := match y.server.a2a with
           | some a => a.providerURL
           | none => none
         a2aDefaultInputModesValue := match y.server.a2a with
           | some a => a.defaultInputModes
           | none => []
         a2aDefaultOutputModesValue := match y.server.a2a with
           | some a => a.defaultOutputModes
           | none => []
         a2aAuthenticationValue := match y.server.a2a with
           | some a => a.authentication
           | none => none
         userKeyHashes := buildUserKeyHashes y.users
         userSubscribes := buildUserSubscribes y.users
         userParams := c.userParams
         backends := buildBackends y.backends }, none)

/-- The `server` block of the watcher-variant YAML document
(`src/unnamed/part_000`, `type yamlConfig struct`): no SSL or A2A block. -/
structure ServerSectionW where
  address : String
  name : String
  version : String
  logLevel : String
  infoHandler : String
  frontendAddress : String
  authorization : String
deriving DecidableEq, Repr

/-- The deserialized YAML document of the watcher variant. -/
structure YamlDocW where
  server : ServerSectionW
  users : List (String × UserEntry)
  backends : List (String × Backend)
deriving DecidableEq, Repr

/-- The live state of `config.YamlConfig` in the watcher variant
(`src/unnamed/part_000`): no SSL/A2A fields, credential map named
`userAuthKeys`. Watcher bookkeeping (`watcher`, `watcherDone`,
`lastModified`, `isWatching`) lives in the debounce model below. -/
structure YamlConfigW where
  serverAddress : String
  serverName : String
  serverVersion : String
  logLevel : String
  infoHandlerValue : String
  frontendAddressValue : String
  authorizationType : AuthorizationType
  userAuthKeys : List (String × String)
  userParams : List (String × List (String × String))
  userSubscribes : List (String × List String)
  backends : List (String × Backend)
deriving DecidableEq, Repr

/-- The authorization switch of the watcher variant's `Update`
(`part_000` lines 258-268): `switch yamlCfg.Server.Authorization`,
case-sensitive (no `strings.ToLower`). -/
def parseAuthorizationW (s : String) : AuthorizationType :=
  if s = "users_only" then AuthorizationType.AuthorizedUsersOnly
  else if s = "marked_methods" then AuthorizationType.NotAuthorizedToMarkedMethods
  else if s = "none" then AuthorizationType.NotAuthorizedEverywhere
  else AuthorizationType.AuthorizedUsersOnly

/-- The `YamlConfig.Update` of the watcher variant (`part_000` lines 230-308).
Same early-return structure on read/parse failure; rebuilds `userAuthKeys`,
`userSubscribes` and `backends` wholesale. The `affectedUsers` set computed
there is a local that the shown code never consumes, so it is not part of
the state. -/
def YamlConfigW.update (c : YamlConfigW) (src : Except ConfigError YamlDocW) :
    YamlConfigW × Option ConfigError :=
  match src with
  | Except.error e => (c, some e)
  | Except.ok y =>
      ({ serverAddress := y.server.address
         serverName := y.server.name
         serverVersion := y.server.version
         logLevel := y.server.logLevel
         infoHandlerValue := y.server.infoHandler
         frontendAddressValue := y.server.frontendAddress
         authorizationType := parseAuthorizationW y.server.authorization
         userAuthKeys := buildUserKeyHashes y.users
         userSubscribes := buildUserSubscribes y.users
         userParams := c.userParams
         backends := buildBackends y.backends }, none)

/-- The `YamlConfig.GetUserIDByKeyHash` from `shared/config/yaml.go`
(lines 268-279): snapshot lookup; empty hash yields no identity and no
error; a missing hash yields `ErrNotFound`. -/
def YamlConfig.getUserIDByKeyHash (c : YamlConfig) (keyHash : String) :
    Except ConfigError String :=
  if keyHash = "" then Except.ok ""
  else
    match alistLookup c.userKeyHashes keyHash with
    | some userID => Except.ok userID
    | none => Except.error ConfigError.notFound

/-- The user scan of the watcher variant's `GetUserIDByKeyHash`
(`part_000` lines 346-352): iterate users, then each user's keys, returning
the first user whose key list contains the hash. -/
def findUserByKey (users : List (String × UserEntry)) (keyHash : String) :
    Option String :=
  match users with
  | [] => none
  | (userID, u) :: rest =>
      if u.keys.contains keyHash then some userID else findUserByKey rest keyHash

/-- The `YamlConfig.GetUserIDByKeyHash` of the watcher variant (`part_000`
lines 330-355). It re-reads and re-parses the backing file (the `fileSrc`
argument) instead of consulting the in-memory snapshot, propagates
read/parse errors, and returns the empty string with a nil error when the
hash matches no user. -/
def YamlConfigW.getUserIDByKeyHash (fileSrc : Except ConfigError YamlDocW)
    (keyHash : String) : Except ConfigError String :=
  match fileSrc with
  | Except.error e => Except.error e
  | Except.ok cfg =>
      match findUserByKey cfg.users keyHash with
      | some userID => Except.ok userID
      | none => Except.ok ""

/-- The `YamlConfig.AuthorizationType` accessor (`yaml.go` lines 237-241). -/
def YamlConfig.authorizationTypeAccessor (c : YamlConfig) :
    AuthorizationType × Option ConfigError :=
  (c.authorizationType, none)

/-- The `YamlConfig.GetUserSubscribes` (`yaml.go` lines 293-303): missing user
yields an empty slice; otherwise a copy of the stored slice. -/
def YamlConfig.getUserSubscribes (c : YamlConfig) (userID : String) :
    List String :=
  match alistLookup c.userSubscribes userID with
  | none => []
  | some servers => servers

/-- The `YamlConfig.GetBackendBySlug` (`yaml.go` lines 305-314): map lookup,
`ErrNotFound` on miss, value copy of the descriptor on hit. -/
def YamlConfig.getBackendBySlug (c : YamlConfig) (backendID : String) :
    Except ConfigError Backend :=
  match alistLookup c.backends backendID with
  | none => Except.error ConfigError.notFound
  | some b => Except.ok (Backend.mk b.url b.bearer)

/-- The `YamlConfig.GetUserParams` (`yaml.go` lines 281-291): missing user
yields an empty map; otherwise a copy of the stored map. -/
def YamlConfig.getUserParams (c : YamlConfig) (userID : String) :
    List (String × String) :=
  match alistLookup c.userParams userID with
  | none => []
  | some params => params

/-- The `YamlConfig.SSLAcmeDomains` (`yaml.go` lines 346-352): a copy of the
stored domains slice. -/
def YamlConfig.sslAcmeDomainsAccessor (c : YamlConfig) : List String :=
  c.sslAcmeDomains

/-- The `derefString` helper used by `GetA2ACardBaseInfo` (declared elsewhere in
the config package): dereference an optional string, empty when nil. -/
def derefString (s : Option String) : String :=
  match s with
  | some v => v
  | none => ""

/-- The `config.A2ACardBaseInfo` as populated by `GetA2ACardBaseInfo`. -/
structure A2ACardBaseInfo where
  name : String
  description : Option String
  agentURL : String
  version : String
  documentationURL : Option String
  defaultInputModes : List String
  defaultOutputModes : List String
  authentication : Option AgentAuthentication
  provider : Option AgentProvider
deriving DecidableEq, Repr

/-- The `YamlConfig.GetA2ACardBaseInfo` (`yaml.go` lines 365-404): copies the
configured A2A fields into a card, builds the provider when either provider
field is set, then applies defaults for empty name, version and modes. -/
def YamlConfig.getA2ACardBaseInfo (c : YamlConfig) (agentURL : String) :
    A2ACardBaseInfo :=
  let info : A2ACardBaseInfo :=
    { name := c.a2aAgentNameValue
      description := c.a2aAgentDescriptionValue
      agentURL := agentURL
      version := c.a2aAgentVersionValue
      documentationURL := c.a2aDocumentationURLValue
      defaultInputModes := c.a2aDefaultInputModesValue
      defaultOutputModes := c.a2aDefaultOutputModesValue
      authentication := c.a2aAuthenticationValue
      provider :=
        if c.a2aProviderOrgValue.isSome || c.a2aProviderURLValue.isSome then
          some (AgentProvider.mk (derefString c.a2aProviderOrgValue) c.a2aProviderURLValue)
        else none }
  let info := if info.name = "" then { info with name := "Gate4AI A2A Agent" } else info
  let info := if info.version = "" then { info with version := "1.0.0" } else info
  let info :=
    if info.defaultInputModes.length = 0 then { info with defaultInputModes := ["text"] }
    else info
  let info :=
    if info.defaultOutputModes.length = 0 then { info with defaultOutputModes := ["text"] }
    else info
  info

/-- Debounce state of the watcher goroutine (`part_000`): the
`lastModified` timestamp guarded by `watcherMu`. Time is modelled as an
integer number of nanoseconds, matching `time.Time`/`time.Duration`
arithmetic. -/
structure WatcherState where
  lastModified : Int
deriving DecidableEq, Repr

/-- One `fsnotify` event as seen by the watcher loop: the `time.Now()`
value at processing, and whether `event.Has(fsnotify.Write) ||
event.Has(fsnotify.Create)` holds. -/
structure FsEvent where
  time : Int
  isWriteOrCreate : Bool
deriving DecidableEq, Repr

/-- The event branch of the watcher loop (`part_000` lines 171-191):
on a write/create event, reload exactly when
`currentTime.Sub(c.lastModified) > minInterval`, updating `lastModified`
to `currentTime` in that case and leaving it alone otherwise. Returns the
new debounce state and whether a reload was scheduled. -/
def processEvent (minInterval : Int) (s : WatcherState) (e : FsEvent) :
    WatcherState × Bool :=
  if e.isWriteOrCreate then
    let shouldReload := e.time - s.lastModified > minInterval
    if shouldReload then ({ lastModified := e.time }, true) else (s, false)
  else (s, false)

/-- The two side effects the reload branch performs, in program order
(`part_000`: `c.lastModified = currentTime` at line 178 under `watcherMu`,
then `c.Update()` at line 185). -/
inductive WatcherAction where
  | setLastModified (t : Int)
  | runUpdate
deriving DecidableEq, Repr

/-- The ordered side-effect trace of processing one event: when a reload
fires, the timestamp write precedes the `Update()` call; otherwise nothing
happens (the event is dropped, nothing is queued). -/
def processEventTrace (minInterval : Int) (s : WatcherState) (e : FsEvent) :
    List WatcherAction :=
  if e.isWriteOrCreate ∧ e.time - s.lastModified > minInterval then
    [WatcherAction.setLastModified e.time, WatcherAction.runUpdate]
  else []

/-- Program counter of one `Update()` execution in the concurrency model:
`Update` holds the exclusive lock from entry (`c.mu.Lock()`) to return
(`defer c.mu.Unlock()`), and writes the credential index before the backend
registry (`yaml.go` lines 215 and 224; `part_000` lines 272 and 302). -/
inductive WriterPc where
  | idle
  | acquired
  | wroteKeys
  | wroteBackends
  | released
deriving DecidableEq, Repr

/-- Whether the writer currently holds the exclusive side of `c.mu`. -/
def WriterPc.holdsLock : WriterPc → Bool
  | WriterPc.acquired => true
  | WriterPc.wroteKeys => true
  | WriterPc.wroteBackends => true
  | _ => false

/-- State of the store as seen by the concurrency model of one `Update()`
racing any number of readers. `keysNew`/`backendsNew` record whether the
credential index resp. the backend registry currently hold the post-reload
generation; `observations` collects every (credential-index generation,
backend-registry generation) pair a reader has read. A reader holds the
shared side of `c.mu` across both of its reads, and `sync.RWMutex` excludes
the writer for that whole span, so a reader's visit is one atomic step
enabled only while the writer does not hold the lock. -/
structure ConcState where
  keysNew : Bool
  backendsNew : Bool
  pc : WriterPc
  observations : List (Bool × Bool)
deriving DecidableEq, Repr

/-- Interleaving semantics of `Update()` (four micro-steps under the
exclusive lock) against snapshot readers. -/
inductive ConcStep : ConcState → ConcState → Prop where
  | acquire (s : ConcState) (h : s.pc = WriterPc.idle) :
      ConcStep s { s with pc := WriterPc.acquired }
  | writeKeys (s : ConcState) (h : s.pc = WriterPc.acquired) :
      ConcStep s { s with pc := WriterPc.wroteKeys, keysNew := true }
  | writeBackends (s : ConcState) (h : s.pc = WriterPc.wroteKeys) :
      ConcStep s { s with pc := WriterPc.wroteBackends, backendsNew := true }
  | release (s : ConcState) (h : s.pc = WriterPc.wroteBackends) :
      ConcStep s { s with pc := WriterPc.released }
  | observe (s : ConcState) (h : s.pc.holdsLock = false) :
      ConcStep s { s with observations := (s.keysNew, s.backendsNew) :: s.observations }

/-- Initial state: pre-reload generation everywhere, writer not started,
nothing observed yet. -/
def initialConcState : ConcState :=
  { keysNew := false, backendsNew := false, pc := WriterPc.idle, observations := [] }

/-- States reachable by any interleaving of the reload with readers. -/
inductive ConcReachable : ConcState → Prop where
  | init : ConcReachable initialConcState
  | step {s t : ConcState} : ConcReachable s → ConcStep s t → ConcReachable t

/-- Inductive invariant for the concurrency model: the generations held by
the two fields are determined by the writer's progress (in particular they
agree whenever the writer does not hold the lock), and every recorded
observation is a consistent pair. -/
def ConcInv (s : ConcState) : Prop :=
  (match s.pc with
   | WriterPc.idle => s.keysNew = false ∧ s.backendsNew = false
   | WriterPc.acquired => s.keysNew = false ∧ s.backendsNew = false
   | WriterPc.wroteKeys => s.keysNew = true ∧ s.backendsNew = false
   | WriterPc.wroteBackends => s.keysNew = true ∧ s.backendsNew = true
   | WriterPc.released => s.keysNew = true ∧ s.backendsNew = true) ∧
  (∀ o ∈ s.observations, o = (false, false) ∨ o = (true, true))

/-- A heap cell: the target of a Go pointer, slice header or map header
held by the store or handed to a caller. -/
inductive HeapCell where
  | backendCell (b : Backend)
  | strListCell (l : List String)
  | strMapCell (m : List (String × String))
deriving DecidableEq, Repr

/-- A heap: addresses to cells. -/
def Heap : Type := List (Nat × HeapCell)

/-- Heap read. -/
def heapRead (h : Heap) (a : Nat) : Option HeapCell := alistLookup h a

/-- Heap write: what a caller does when it mutates a structure an accessor
returned (`*backend = ...`, writing slice elements, map assignment). -/
def heapWrite (h : Heap) (a : Nat) (cell : HeapCell) : Heap := alistInsert h a cell

/-- The pointer-level view of the store used for the defensive-copy claim:
the snapshot's mutable sub-structures live behind addresses. `backendsAddr`
embeds `map[string]*Backend`, the slice and map fields hold their headers'
addresses. -/
structure StoreHeap where
  heap : Heap
  backendsAddr : List (String × Nat)
  userSubscribesAddr : List (String × Nat)
  userParamsAddr : List (String × Nat)
  sslAcmeDomainsAddr : Nat

/-- Addresses the live snapshot references. -/
def StoreHeap.liveAddrs (c : StoreHeap) : List Nat :=
  c.backendsAddr.map Prod.snd ++ c.userSubscribesAddr.map Prod.snd ++
    c.userParamsAddr.map Prod.snd ++ [c.sslAcmeDomainsAddr]

/-- What the live snapshot holds for a backend slug, read through a given
heap. -/
def StoreHeap.observeBackend (c : StoreHeap) (h : Heap) (slug : String) :
    Option HeapCell :=
  match alistLookup c.backendsAddr slug with
  | none => none
  | some a => heapRead h a

/-- What the live snapshot holds for a user's subscriptions, read through a
given heap. -/
def StoreHeap.observeUserSubscribes (c : StoreHeap) (h : Heap) (userID : String) :
    Option HeapCell :=
  match alistLookup c.userSubscribesAddr userID with
  | none => none
  | some a => heapRead h a

/-- What the live snapshot holds for a user's params, read through a given
heap. -/
def StoreHeap.observeUserParams (c : StoreHeap) (h : Heap) (userID : String) :
    Option HeapCell :=
  match alistLookup c.userParamsAddr userID with
  | none => none
  | some a => heapRead h a

/-- What the live snapshot holds for the ACME domains slice, read through a
given heap. -/
def StoreHeap.observeAcmeDomains (c : StoreHeap) (h : Heap) : Option HeapCell :=
  heapRead h c.sslAcmeDomainsAddr

/-- The `YamlConfig.GetBackendBySlug` (`yaml.go` lines 305-314) at the pointer
level: on a hit it copies the descriptor into a fresh cell
(`backendCopy := *backend`) and returns the fresh address
(`return &backendCopy, nil`). `fresh` is the address the allocator hands
out. -/
def StoreHeap.getBackendBySlugH (c : StoreHeap) (fresh : Nat) (slug : String) :
    Except ConfigError (Heap × Nat) :=
  match alistLookup c.backendsAddr slug with
  | none => Except.error ConfigError.notFound
  | some a =>
      match heapRead c.heap a with
      | some cell => Except.ok (heapWrite c.heap fresh cell, fresh)
      | none => Except.error ConfigError.notFound

/-- The `YamlConfig.GetBackend` of the watcher variant (`part_000` lines
392-402) at the pointer level: on a hit it returns the stored pointer
itself (`return backend, nil`) — no copy, no allocation. -/
def StoreHeap.getBackendH (c : StoreHeap) (slug : String) :
    Except ConfigError Nat :=
  match alistLookup c.backendsAddr slug with
  | none => Except.error ConfigError.notFound
  | some a => Except.ok a

/-- The `YamlConfig.GetUserSubscribes` (`yaml.go` lines 293-303) at the pointer
level: a fresh slice is always handed back — empty on a miss, a copied one
on a hit. -/
def StoreHeap.getUserSubscribesH (c : StoreHeap) (fresh : Nat) (userID : String) :
    Heap × Nat :=
  match alistLookup c.userSubscribesAddr userID with
  | none => (heapWrite c.heap fresh (HeapCell.strListCell []), fresh)
  | some a =>
      match heapRead c.heap a with
      | some cell => (heapWrite c.heap fresh cell, fresh)
      | none => (heapWrite c.heap fresh (HeapCell.strListCell []), fresh)

/-- The `YamlConfig.GetUserParams` (`yaml.go` lines 281-291) at the pointer
level: a fresh map is always handed back — empty on a miss, a copy
(`copyMap`) on a hit. -/
def StoreHeap.getUserParamsH (c : StoreHeap) (fresh : Nat) (userID : String) :
    Heap × Nat :=
  match alistLookup c.userParamsAddr userID with
  | none => (heapWrite c.heap fresh (HeapCell.strMapCell []), fresh)
  | some a =>
      match heapRead c.heap a with
      | some cell => (heapWrite c.heap fresh cell, fresh)
      | none => (heapWrite c.heap fresh (HeapCell.strMapCell []), fresh)

/-- The `YamlConfig.SSLAcmeDomains` (`yaml.go` lines 346-352) at the pointer
level: always a fresh copied slice. -/
def StoreHeap.sslAcmeDomainsH (c : StoreHeap) (fresh : Nat) : Heap × Nat :=
  match heapRead c.heap c.sslAcmeDomainsAddr with
  | some cell => (heapWrite c.heap fresh cell, fresh)
  | none => (heapWrite c.heap fresh (HeapCell.strListCell []), fresh)

/-- Modelled from the spec: the task state enum of the task protocol
(`a2aSchema.TaskState`; the a2aClient package and the A2A schema are not
among the provided sources, only `tests/a2a_client_test.go` uses them).
Spec §3: `enum{Submitted, Working, InputRequired, Completed, Failed,
Canceled}`. -/
inductive TaskState where
  | submitted
  | working
  | inputRequired
  | completed
  | failed
  | canceled
deriving DecidableEq, Repr

/-- Modelled from the spec: terminal states are `Completed`, `Failed`,
`Canceled` (spec §3). -/
def TaskState.isTerminal : TaskState → Bool
  | TaskState.completed => true
  | TaskState.failed => true
  | TaskState.canceled => true
  | _ => false

/-- Modelled from the spec: a Task tracked by the backend (spec §3):
caller-assigned id, optional session id, state, optional status message,
append-only artifact sequence. -/
structure A2ATask where
  id : String
  sessionId : Option String
  state : TaskState
  statusMessage : Option String
  artifacts : List String
deriving DecidableEq, Repr

/-- Modelled from the spec: the state-transition rule of the task
lifecycle — "once terminal, no further transition is accepted" (spec §3).
A requested transition is applied only when the current state is
non-terminal. -/
def applyTransition (t : A2ATask) (next : TaskState) : A2ATask :=
  if t.state.isTerminal then t else { t with state := next }

/-- Modelled from the spec: the backend's authoritative task table, keyed
by task id. -/
def TaskStore : Type := List (String × A2ATask)

/-- Modelled from the spec: `GetTask(id)` — a point-in-time snapshot of the
task the backend currently holds for that id, `NotFound` when the id has no
match (spec §4.2, §7). -/
def getTask (store : TaskStore) (id : String) : Except ConfigError A2ATask :=
  match alistLookup store id with
  | some t => Except.ok t
  | none => Except.error ConfigError.notFound

/-- Modelled from the spec: applying a sequence of requested transitions to
the task with the given id (the backend serializes operations on one task
id, spec §5). -/
def applyTransitions (store : TaskStore) (id : String) (reqs : List TaskState) :
    TaskStore :=
  match alistLookup store id with
  | none => store
  | some t => alistInsert store id (reqs.foldl applyTransition t)

/-- Modelled from the spec: the error taxonomy of the task protocol engine
that the claims mention (spec §7). -/
inductive A2AError where
  | notCancelable
  | notFound
deriving DecidableEq, Repr

/-- Modelled from the spec: `CancelTask(id) -> Task | NotCancelableError` —
signals `NotCancelableError` when the task already reached a terminal
state, otherwise moves it to `Canceled` (spec §4.2, §7;
`tests/a2a_client_test.go` checks `ErrorCodeTaskNotCancelable`). -/
def cancelTask (store : TaskStore) (id : String) :
    Except A2AError (TaskStore × A2ATask) :=
  match alistLookup store id with
  | none => Except.error A2AError.notFound
  | some t =>
      if t.state.isTerminal then Except.error A2AError.notCancelable
      else
        let t2 := { t with state := TaskState.canceled }
        Except.ok (alistInsert store id t2, t2)

/-- Modelled from the spec: a stream event of `SendTaskSubscribe` — either
a `StatusUpdate{state, final}` or an `ArtifactUpdate{artifact, index}`
(spec §3). -/
inductive StreamEvent where
  | statusUpdate (state : TaskState) (final : Bool)
  | artifactUpdate (artifact : String) (index : Nat)
deriving DecidableEq, Repr

/-- Whether an event is a `StatusUpdate` with `final=true`. -/
def StreamEvent.isFinalStatus : StreamEvent → Bool
  | StreamEvent.statusUpdate _ f => f
  | _ => false

/-- Modelled from the spec: the producer side of `SendTaskSubscribe` —
events are delivered in backend order until the first `StatusUpdate` with
`final=true`, which is delivered and then the stream is closed by the
producer; nothing is delivered after it (spec §3, §4.2). `emitted` is the
raw sequence the backend produces. -/
def deliverEvents (emitted : List StreamEvent) : List StreamEvent :=
  match emitted with
  | [] => []
  | e :: rest =>
      if e.isFinalStatus then [e] else e :: deliverEvents rest

theorem alistLookup_insert_self {κ α : Type} [DecidableEq κ]
    (m : List (κ × α)) (k : κ) (v : α) :
    alistLookup (alistInsert m k v) k = some v := by
  induction m with
  | nil => simp [alistInsert, alistLookup]
  | cons p rest ih =>
      by_cases h : p.1 = k
      · simp [alistInsert, alistLookup, h]
      · simp [alistInsert, alistLookup, h, ih]

theorem alistLookup_insert_ne {κ α : Type} [DecidableEq κ]
    (m : List (κ × α)) (k a : κ) (v : α) (h : a ≠ k) :
    alistLookup (alistInsert m k v) a = alistLookup m a := by
  have hk : ¬ k = a := fun hh => h hh.symm
  induction m with
  | nil => simp [alistInsert, alistLookup, hk]
  | cons p rest ih =>
      by_cases hp : p.1 = k
      · simp [alistInsert, alistLookup, hp, hk]
      · simp [alistInsert, alistLookup, hp, ih]

theorem alistLookup_mem_values {κ α : Type} [DecidableEq κ]
    (m : List (κ × α)) (k : κ) (v : α) (h : alistLookup m k = some v) :
    v ∈ m.map Prod.snd := by
  induction m with
  | nil => simp [alistLookup] at h
  | cons p rest ih =>
      by_cases hp : p.1 = k
      · simp [alistLookup, hp] at h
        simp [h]
      · simp [alistLookup, hp] at h
        simp [ih h]

/-- The zero-value state built by `NewYamlConfigWithOptions` in `yaml.go`
(lines 109-119) before the first `Update`: empty maps, authorization
defaulted to `AuthorizedUsersOnly`, `sslMode` `"manual"`, ACME cache dir
`"./.autocert-cache"`, Go zero values elsewhere. -/
def initialYamlConfig : YamlConfig :=
  { serverAddress := ""
    serverName := ""
    serverVersion := ""
    logLevel := ""
    DiscoveringHandlerPathValue := ""
    frontendAddressValue := ""
    authorizationType := AuthorizationType.AuthorizedUsersOnly
    userKeyHashes := []
    userParams := []
    userSubscribes := []
    backends := []
    sslEnabled := false
    sslMode := "manual"
    sslCertFile := ""
    sslKeyFile := ""
    sslAcmeDomains := []
    sslAcmeEmail := ""
    sslAcmeCacheDir := "./.autocert-cache"
    a2aAgentNameValue := ""
    a2aAgentDescriptionValue := none
    a2aProviderOrgValue := none
    a2aProviderURLValue := none
    a2aAgentVersionValue := ""
    a2aDocumentationURLValue := none
    a2aDefaultInputModesValue := []
    a2aDefaultOutputModesValue := []
    a2aAuthenticationValue := none }

/-- The zero-value state built by `NewYamlConfigWithOptions` in the watcher
variant (`part_000` lines 99-107). -/
def initialYamlConfigW : YamlConfigW :=
  { serverAddress := ""
    serverName := ""
    serverVersion := ""
    logLevel := ""
    infoHandlerValue := ""
    frontendAddressValue := ""
    authorizationType := AuthorizationType.AuthorizedUsersOnly
    userAuthKeys := []
    userParams := []
    userSubscribes := []
    backends := [] }

/-- A concrete watcher-variant snapshot whose credential index binds the
hash `"h"` to `"alice"`. -/
def sampleConfigW : YamlConfigW :=
  { initialYamlConfigW with userAuthKeys := [("h", "alice")] }

/-- A concrete parse result of the backing file with no users section. -/
def emptyUsersDocW : YamlDocW :=
  { server :=
      { address := ""
        name := ""
        version := ""
        logLevel := ""
        infoHandler := ""
        frontendAddress := ""
        authorization := "" }
    users := []
    backends := [] }

/-- C1: Reload is all-or-nothing. For every store state, when the backing
file is unreadable or fails to parse as YAML, `Update()` returns that error
and the whole live state — credential index, user subscriptions, backend
registry, authorization policy and server fields — is exactly the state
before the call. Proved for both implementations of the store
(`shared/config/yaml.go` and the watcher variant). -/
theorem reload_all_or_nothing (c : YamlConfig) (cw : YamlConfigW)
    (e : ConfigError) :
    YamlConfig.update c (Except.error e) = (c, some e) ∧
    YamlConfigW.update cw (Except.error e) = (cw, some e) :=
  ⟨rfl, rfl⟩

/-- C4 counterexample: in the watcher variant, `GetUserIDByKeyHash` is not
a lookup against the in-memory snapshot and does not return `NotFound` on a
miss. With a snapshot whose credential index binds `"h"` to `"alice"` but a
backing file with no users, the call returns the empty user id with a nil
error — not `"alice"`, and not `ErrNotFound`. -/
theorem resolve_user_counterexample :
    sampleConfigW.userAuthKeys = [("h", "alice")] ∧
    YamlConfigW.getUserIDByKeyHash (Except.ok emptyUsersDocW) "h" = Except.ok "" ∧
    (Except.ok "" : Except ConfigError String) ≠ Except.ok "alice" ∧
    (Except.ok "" : Except ConfigError String) ≠ Except.error ConfigError.notFound := by
  refine ⟨rfl, rfl, by simp, by simp⟩

/-- C4 (amended): `GetUserIDByKeyHash` of `shared/config/yaml.go` satisfies
the claim as stated: empty hash → no identity and no error; hash bound in
the in-memory credential index → that user id; otherwise `ErrNotFound`.
The watcher variant instead re-reads and re-parses the backing file on
every call: read/parse errors propagate, a hash bound in the file yields
that user id, and an unbound hash yields the empty user id with no error
(never `ErrNotFound`). -/
theorem resolve_user_contract :
    (∀ c : YamlConfig, YamlConfig.getUserIDByKeyHash c "" = Except.ok "") ∧
    (∀ (c : YamlConfig) (k uid : String), k ≠ "" →
      alistLookup c.userKeyHashes k = some uid →
      YamlConfig.getUserIDByKeyHash c k = Except.ok uid) ∧
    (∀ (c : YamlConfig) (k : String), k ≠ "" →
      alistLookup c.userKeyHashes k = none →
      YamlConfig.getUserIDByKeyHash c k = Except.error ConfigError.notFound) ∧
    (∀ (e : ConfigError) (k : String),
      YamlConfigW.getUserIDByKeyHash (Except.error e) k = Except.error e) ∧
    (∀ (d : YamlDocW) (k uid : String), findUserByKey d.users k = some uid →
      YamlConfigW.getUserIDByKeyHash (Except.ok d) k = Except.ok uid) ∧
    (∀ (d : YamlDocW) (k : String), findUserByKey d.users k = none →
      YamlConfigW.getUserIDByKeyHash (Except.ok d) k = Except.ok "") := by
  refine ⟨?_, ?_, ?_, ?_, ?_, ?_⟩
  · intro c
    simp [YamlConfig.getUserIDByKeyHash]
  · intro c k uid hk hl
    simp [YamlConfig.getUserIDByKeyHash, hk, hl]
  · intro c k hk hl
    simp [YamlConfig.getUserIDByKeyHash, hk, hl]
  · intro e k
    simp [YamlConfigW.getUserIDByKeyHash]
  · intro d k uid hl
    simp [YamlConfigW.getUserIDByKeyHash, hl]
  · intro d k hl
    simp [YamlConfigW.getUserIDByKeyHash, hl]

/-- C4 witness: the amended contract at concrete inputs. -/
theorem resolve_user_contract_witness :
    YamlConfig.getUserIDByKeyHash
      { initialYamlConfig with userKeyHashes := [("h1", "alice")] } "h1" =
      Except.ok "alice" ∧
    YamlConfig.getUserIDByKeyHash
      { initialYamlConfig with userKeyHashes := [("h1", "alice")] } "h2" =
      Except.error ConfigError.notFound ∧
    YamlConfigW.getUserIDByKeyHash (Except.ok emptyUsersDocW) "h2" = Except.ok "" :=
  ⟨resolve_user_contract.2.1 _ "h1" "alice" (by decide) rfl,
   resolve_user_contract.2.2.1 _ "h2" (by decide) rfl,
   resolve_user_contract.2.2.2.2.2 emptyUsersDocW "h2" rfl⟩

/-- An SSL section holding Go zero values (absent `ssl` block). -/
def zeroSSL : SSLSection :=
  { enabled := false
    mode := ""
    certFile := ""
    keyFile := ""
    acmeDomains := []
    acmeEmail := ""
    acmeCacheDir := "" }

/-- A minimal parsed document whose only non-zero field is the
authorization string. -/
def docWithAuthorization (s : String) : YamlDoc :=
  { server :=
      { address := ""
        name := ""
        version := ""
        logLevel := ""
        discoveringHandlerPath := ""
        frontendAddress := ""
        authorization := s
        ssl := zeroSSL
        a2a := none }
    users := []
    backends := [] }

/-- C5 counterexample: `yaml.go` lowercases the authorization string before
the switch, so the configured string `"NONE"` — which is neither
`"users_only"`, `"marked_methods"` nor `"none"`, and by the claim should
default to `AuthorizedUsersOnly` — yields `NotAuthorizedEverywhere` after a
successful `Update()`. -/
theorem authorization_default_counterexample :
    (YamlConfig.update initialYamlConfig
        (Except.ok (docWithAuthorization "NONE"))).2 = none ∧
    (YamlConfig.update initialYamlConfig
        (Except.ok (docWithAuthorization "NONE"))).1.authorizationType =
      AuthorizationType.NotAuthorizedEverywhere ∧
    ("NONE" : String) ≠ "users_only" ∧ ("NONE" : String) ≠ "marked_methods" ∧
    ("NONE" : String) ≠ "none" ∧
    AuthorizationType.NotAuthorizedEverywhere ≠
      AuthorizationType.AuthorizedUsersOnly := by
  refine ⟨rfl, by decide, by decide, by decide, by decide, by decide⟩

/-- C5 (amended): after every successful `Update()` the stored policy is
the switch applied to the authorization string, where
`shared/config/yaml.go` first lowercases the string (matching is
case-insensitive there: any string lowercasing to `"users_only"`,
`"marked_methods"` or `"none"` maps accordingly, everything else —
including `"bogus"` and the empty string — defaults to
`AuthorizedUsersOnly`), while the watcher variant matches the configured
string case-sensitively, exactly as the claim states. -/
theorem authorization_defaulting :
    (∀ (c : YamlConfig) (y : YamlDoc),
      (YamlConfig.update c (Except.ok y)).2 = none ∧
      (YamlConfig.update c (Except.ok y)).1.authorizationType =
        parseAuthorization y.server.authorization) ∧
    (∀ s : String, asciiToLower s = "users_only" →
      parseAuthorization s = AuthorizationType.AuthorizedUsersOnly) ∧
    (∀ s : String, asciiToLower s = "marked_methods" →
      parseAuthorization s = AuthorizationType.NotAuthorizedToMarkedMethods) ∧
    (∀ s : String, asciiToLower s = "none" →
      parseAuthorization s = AuthorizationType.NotAuthorizedEverywhere) ∧
    (∀ s : String, asciiToLower s ≠ "users_only" →
      asciiToLower s ≠ "marked_methods" → asciiToLower s ≠ "none" →
      parseAuthorization s = AuthorizationType.AuthorizedUsersOnly) ∧
    (∀ (cw : YamlConfigW) (yw : YamlDocW),
      (YamlConfigW.update cw (Except.ok yw)).2 = none ∧
      (YamlConfigW.update cw (Except.ok yw)).1.authorizationType =
        parseAuthorizationW yw.server.authorization) ∧
    (parseAuthorizationW "users_only" = AuthorizationType.AuthorizedUsersOnly) ∧
    (parseAuthorizationW "marked_methods" =
      AuthorizationType.NotAuthorizedToMarkedMethods) ∧
    (parseAuthorizationW "none" = AuthorizationType.NotAuthorizedEverywhere) ∧
    (∀ s : String, s ≠ "users_only" → s ≠ "marked_methods" → s ≠ "none" →
      parseAuthorizationW s = AuthorizationType.AuthorizedUsersOnly) := by
  refine ⟨fun c y => ⟨rfl, rfl⟩, ?_, ?_, ?_, ?_, fun cw yw => ⟨rfl, rfl⟩,
    rfl, rfl, rfl, ?_⟩
  · intro s h
    simp [parseAuthorization, h]
  · intro s h
    simp [parseAuthorization, h]
  · intro s h
    simp [parseAuthorization, h]
  · intro s h1 h2 h3
    simp [parseAuthorization, h1, h2, h3]
  · intro s h1 h2 h3
    simp [parseAuthorizationW, h1, h2, h3]

/-- C5 witness: the amended mapping at concrete strings. -/
theorem authorization_defaulting_witness :
    parseAuthorization "bogus" = AuthorizationType.AuthorizedUsersOnly ∧
    parseAuthorization "" = AuthorizationType.AuthorizedUsersOnly ∧
    parseAuthorization "none" = AuthorizationType.NotAuthorizedEverywhere ∧
    parseAuthorizationW "bogus" = AuthorizationType.AuthorizedUsersOnly ∧
    parseAuthorizationW "NONE" = AuthorizationType.AuthorizedUsersOnly :=
  ⟨authorization_defaulting.2.2.2.2.1 "bogus" (by decide) (by decide) (by decide),
   authorization_defaulting.2.2.2.2.1 "" (by decide) (by decide) (by decide),
   authorization_defaulting.2.2.2.1 "none" (by decide),
   authorization_defaulting.2.2.2.2.2.2.2.2.2 "bogus"
     (by decide) (by decide) (by decide),
   authorization_defaulting.2.2.2.2.2.2.2.2.2 "NONE"
     (by decide) (by decide) (by decide)⟩

/-- C10: `GetA2ACardBaseInfo` defaulting. For every store state and agent
URL, the returned card's name is `"Gate4AI A2A Agent"` when the configured
agent name is empty and the configured name otherwise; the version is
`"1.0.0"` when the configured version is empty and the configured version
otherwise; each modes list is `["text"]` when the configured list is empty
and the configured list unchanged otherwise. -/
theorem getA2ACardBaseInfo_name (c : YamlConfig) (u : String) :
    (YamlConfig.getA2ACardBaseInfo c u).name =
      if c.a2aAgentNameValue = "" then "Gate4AI A2A Agent"
      else c.a2aAgentNameValue := by
  unfold YamlConfig.getA2ACardBaseInfo
  simp [apply_ite A2ACardBaseInfo.name]

theorem getA2ACardBaseInfo_version (c : YamlConfig) (u : String) :
    (YamlConfig.getA2ACardBaseInfo c u).version =
      if c.a2aAgentVersionValue = "" then "1.0.0"
      else c.a2aAgentVersionValue := by
  unfold YamlConfig.getA2ACardBaseInfo
  simp [apply_ite A2ACardBaseInfo.version]

theorem getA2ACardBaseInfo_inputModes (c : YamlConfig) (u : String) :
    (YamlConfig.getA2ACardBaseInfo c u).defaultInputModes =
      if c.a2aDefaultInputModesValue.length = 0 then ["text"]
      else c.a2aDefaultInputModesValue := by
  unfold YamlConfig.getA2ACardBaseInfo
  simp [apply_ite A2ACardBaseInfo.defaultInputModes]

theorem getA2ACardBaseInfo_outputModes (c : YamlConfig) (u : String) :
    (YamlConfig.getA2ACardBaseInfo c u).defaultOutputModes =
      if c.a2aDefaultOutputModesValue.length = 0 then ["text"]
      else c.a2aDefaultOutputModesValue := by
  unfold YamlConfig.getA2ACardBaseInfo
  simp [apply_ite A2ACardBaseInfo.defaultOutputModes]

theorem a2a_card_defaults (c : YamlConfig) (u : String) :
    (c.a2aAgentNameValue = "" →
      (YamlConfig.getA2ACardBaseInfo c u).name = "Gate4AI A2A Agent") ∧
    (c.a2aAgentNameValue ≠ "" →
      (YamlConfig.getA2ACardBaseInfo c u).name = c.a2aAgentNameValue) ∧
    (c.a2aAgentVersionValue = "" →
      (YamlConfig.getA2ACardBaseInfo c u).version = "1.0.0") ∧
    (c.a2aAgentVersionValue ≠ "" →
      (YamlConfig.getA2ACardBaseInfo c u).version = c.a2aAgentVersionValue) ∧
    (c.a2aDefaultInputModesValue = [] →
      (YamlConfig.getA2ACardBaseInfo c u).defaultInputModes = ["text"]) ∧
    (c.a2aDefaultInputModesValue ≠ [] →
      (YamlConfig.getA2ACardBaseInfo c u).defaultInputModes =
        c.a2aDefaultInputModesValue) ∧
    (c.a2aDefaultOutputModesValue = [] →
      (YamlConfig.getA2ACardBaseInfo c u).defaultOutputModes = ["text"]) ∧
    (c.a2aDefaultOutputModesValue ≠ [] →
      (YamlConfig.getA2ACardBaseInfo c u).defaultOutputModes =
        c.a2aDefaultOutputModesValue) := by
  refine ⟨?_, ?_, ?_, ?_, ?_, ?_, ?_, ?_⟩ <;> intro h <;>
    simp [getA2ACardBaseInfo_name, getA2ACardBaseInfo_version,
      getA2ACardBaseInfo_inputModes, getA2ACardBaseInfo_outputModes, h,
      List.length_eq_zero]

/-- C10 witness: the defaults on a store with no A2A configuration, and
pass-through on a store with a configured name. -/
theorem a2a_card_defaults_witness :
    (YamlConfig.getA2ACardBaseInfo initialYamlConfig "http://gw").name =
      "Gate4AI A2A Agent" ∧
    (YamlConfig.getA2ACardBaseInfo initialYamlConfig "http://gw").version =
      "1.0.0" ∧
    (YamlConfig.getA2ACardBaseInfo initialYamlConfig "http://gw").defaultInputModes =
      ["text"] ∧
    (YamlConfig.getA2ACardBaseInfo initialYamlConfig "http://gw").defaultOutputModes =
      ["text"] ∧
    (YamlConfig.getA2ACardBaseInfo
      { initialYamlConfig with a2aAgentNameValue := "My Agent" } "http://gw").name =
      "My Agent" :=
  ⟨(a2a_card_defaults initialYamlConfig "http://gw").1 rfl,
   (a2a_card_defaults initialYamlConfig "http://gw").2.2.1 rfl,
   (a2a_card_defaults initialYamlConfig "http://gw").2.2.2.2.1 rfl,
   (a2a_card_defaults initialYamlConfig "http://gw").2.2.2.2.2.2.1 rfl,
   (a2a_card_defaults
     { initialYamlConfig with a2aAgentNameValue := "My Agent" } "http://gw").2.1
     (by decide)⟩

/-- C3: Debounce. For any event in any observed sequence (the watcher loop
processes events one at a time, so `s` is the debounce state current when
the event arrives): a reload is scheduled only for a write/create event
whose distance from the last-applied timestamp strictly exceeds
`minInterval` (hence is at least `minInterval`); an event strictly inside
the window schedules nothing and leaves the state unchanged (dropped, not
queued); and when a reload is scheduled, the last-applied timestamp is set
to the event's processing time, with the timestamp write ordered before the
`Update()` call in the side-effect trace. -/
theorem watcher_debounce (minInterval : Int) (s : WatcherState) (e : FsEvent) :
    ((processEvent minInterval s e).2 = true →
      e.isWriteOrCreate = true ∧
      e.time - s.lastModified > minInterval ∧
      e.time - s.lastModified ≥ minInterval ∧
      (processEvent minInterval s e).1.lastModified = e.time ∧
      processEventTrace minInterval s e =
        [WatcherAction.setLastModified e.time, WatcherAction.runUpdate]) ∧
    (e.time - s.lastModified < minInterval →
      (processEvent minInterval s e).2 = false ∧
      (processEvent minInterval s e).1 = s ∧
      processEventTrace minInterval s e = []) ∧
    (e.isWriteOrCreate = false →
      (processEvent minInterval s e).2 = false ∧
      (processEvent minInterval s e).1 = s ∧
      processEventTrace minInterval s e = []) := by
  by_cases hw : e.isWriteOrCreate
  · by_cases hr : e.time - s.lastModified > minInterval
    · refine ⟨fun _ => ⟨hw, hr, le_of_lt hr, ?_, ?_⟩, fun hlt => absurd hr ?_, ?_⟩
      · simp [processEvent, hw, hr]
      · simp [processEventTrace, hw, hr]
      · simp
        omega
      · intro hno
        rw [hno] at hw
        exact absurd hw (by simp)
    · refine ⟨fun hfired => ?_, fun _ => ?_, fun _ => ?_⟩
      · simp [processEvent, hw, hr] at hfired
      · exact ⟨by simp [processEvent, hw, hr], by simp [processEvent, hw, hr],
          by simp [processEventTrace, hw, hr]⟩
      · exact ⟨by simp [processEvent, hw, hr], by simp [processEvent, hw, hr],
          by simp [processEventTrace, hw, hr]⟩
  · refine ⟨fun hfired => ?_, fun _ => ?_, fun _ => ?_⟩
    · simp [processEvent, hw] at hfired
    · exact ⟨by simp [processEvent, hw], by simp [processEvent, hw],
        by simp [processEventTrace, hw]⟩
    · exact ⟨by simp [processEvent, hw], by simp [processEvent, hw],
        by simp [processEventTrace, hw]⟩

/-- C3 witness: with `minInterval = 1000`, an event 1001 after the last
applied reload fires (and moves the timestamp to its own time), while an
event 500 after it is dropped with no state change. -/
theorem watcher_debounce_witness :
    (processEvent 1000 { lastModified := 0 }
      { time := 1001, isWriteOrCreate := true }).1.lastModified = 1001 ∧
    processEventTrace 1000 { lastModified := 0 }
      { time := 1001, isWriteOrCreate := true } =
      [WatcherAction.setLastModified 1001, WatcherAction.runUpdate] ∧
    (processEvent 1000 { lastModified := 0 }
      { time := 500, isWriteOrCreate := true }).1 = { lastModified := 0 } ∧
    processEventTrace 1000 { lastModified := 0 }
      { time := 500, isWriteOrCreate := true } = [] :=
  ⟨((watcher_debounce 1000 { lastModified := 0 }
      { time := 1001, isWriteOrCreate := true }).1 (by decide)).2.2.2.1,
   ((watcher_debounce 1000 { lastModified := 0 }
      { time := 1001, isWriteOrCreate := true }).1 (by decide)).2.2.2.2,
   ((watcher_debounce 1000 { lastModified := 0 }
      { time := 500, isWriteOrCreate := true }).2.1 (by decide)).2.1,
   ((watcher_debounce 1000 { lastModified := 0 }
      { time := 500, isWriteOrCreate := true }).2.1 (by decide)).2.2⟩

theorem concInv_initial : ConcInv initialConcState := by
  constructor
  · exact ⟨rfl, rfl⟩
  · intro o ho
    simp [initialConcState] at ho

theorem concInv_step {s t : ConcState} (hinv : ConcInv s) (hstep : ConcStep s t) :
    ConcInv t := by
  obtain ⟨hpc, hobs⟩ := hinv
  cases hstep with
  | acquire h =>
      rw [h] at hpc
      exact ⟨⟨hpc.1, hpc.2⟩, hobs⟩
  | writeKeys h =>
      rw [h] at hpc
      exact ⟨⟨rfl, hpc.2⟩, hobs⟩
  | writeBackends h =>
      rw [h] at hpc
      exact ⟨⟨hpc.1, rfl⟩, hobs⟩
  | release h =>
      rw [h] at hpc
      exact ⟨⟨hpc.1, hpc.2⟩, hobs⟩
  | observe h =>
      refine ⟨hpc, ?_⟩
      intro o ho
      rcases List.mem_cons.mp ho with ho | ho
      · subst ho
        cases hs : s.pc
        case idle =>
          rw [hs] at hpc
          simp [hpc.1, hpc.2]
        case acquired =>
          rw [hs] at h
          simp [WriterPc.holdsLock] at h
        case wroteKeys =>
          rw [hs] at h
          simp [WriterPc.holdsLock] at h
        case wroteBackends =>
          rw [hs] at h
          simp [WriterPc.holdsLock] at h
        case released =>
          rw [hs] at hpc
          simp [hpc.1, hpc.2]
      · exact hobs o ho

theorem concReachable_inv {s : ConcState} (h : ConcReachable s) : ConcInv s := by
  induction h with
  | init => exact concInv_initial
  | step _ hstep ih => exact concInv_step ih hstep

/-- Checks that every observation pairs the old credential index with the
old backend registry or the new with the new — never a mix. -/
def consistentObs (obs : List (Bool × Bool)) : Bool :=
  obs.all fun o => o == (false, false) || o == (true, true)

/-- C2: Snapshot atomicity. In every state reachable by interleaving
snapshot readers with a concurrent `Update()` — where `Update` performs its
field writes while holding the exclusive side of `c.mu` and every reader
reads under the shared side, as in both implementations — every observation
a reader ever records is either fully pre-reload or fully post-reload; no
reader observes an old credential index paired with a new backend registry
or vice versa. -/
theorem snapshot_atomicity (s : ConcState) (h : ConcReachable s) :
    consistentObs s.observations = true := by
  obtain ⟨_, hobs⟩ := concReachable_inv h
  unfold consistentObs
  rw [List.all_eq_true]
  intro o ho
  rcases hobs o ho with h1 | h1 <;> subst h1 <;> rfl

/-- C2 witness: a concrete interleaving — a reader observes before the
reload, the reload runs to completion, a reader observes after — and every
recorded observation is consistent. -/
theorem snapshot_atomicity_witness :
    ConcReachable
      { keysNew := true, backendsNew := true, pc := WriterPc.released,
        observations := [(true, true), (false, false)] } ∧
    consistentObs [(true, true), (false, false)] = true := by
  have h0 : ConcReachable initialConcState := ConcReachable.init
  have h1 : ConcReachable
      { keysNew := false, backendsNew := false, pc := WriterPc.idle,
        observations := [(false, false)] } := by
    have hstep := ConcStep.observe initialConcState (by rfl)
    exact ConcReachable.step h0 hstep
  have h2 : ConcReachable
      { keysNew := false, backendsNew := false, pc := WriterPc.acquired,
        observations := [(false, false)] } :=
    ConcReachable.step h1 (ConcStep.acquire _ rfl)
  have h3 : ConcReachable
      { keysNew := true, backendsNew := false, pc := WriterPc.wroteKeys,
        observations := [(false, false)] } :=
    ConcReachable.step h2 (ConcStep.writeKeys _ rfl)
  have h4 : ConcReachable
      { keysNew := true, backendsNew := true, pc := WriterPc.wroteBackends,
        observations := [(false, false)] } :=
    ConcReachable.step h3 (ConcStep.writeBackends _ rfl)
  have h5 : ConcReachable
      { keysNew := true, backendsNew := true, pc := WriterPc.released,
        observations := [(false, false)] } :=
    ConcReachable.step h4 (ConcStep.release _ rfl)
  have h6 : ConcReachable
      { keysNew := true, backendsNew := true, pc := WriterPc.released,
        observations := [(true, true), (false, false)] } :=
    ConcReachable.step h5 (ConcStep.observe _ rfl)
  exact ⟨h6, snapshot_atomicity _ h6⟩

theorem heapRead_write_ne (h : Heap) (a fresh : Nat) (cell : HeapCell)
    (hne : a ≠ fresh) :
    heapRead (heapWrite h fresh cell) a = heapRead h a :=
  alistLookup_insert_ne h fresh a cell hne

/-- Two heaps look identical through every reference the live snapshot
holds. -/
def StoreHeap.sameObservations (c : StoreHeap) (h1 h2 : Heap) : Prop :=
  (∀ slug, c.observeBackend h1 slug = c.observeBackend h2 slug) ∧
  (∀ uid, c.observeUserSubscribes h1 uid = c.observeUserSubscribes h2 uid) ∧
  (∀ uid, c.observeUserParams h1 uid = c.observeUserParams h2 uid) ∧
  c.observeAcmeDomains h1 = c.observeAcmeDomains h2

theorem sameObservations_trans {c : StoreHeap} {h1 h2 h3 : Heap}
    (a : c.sameObservations h1 h2) (b : c.sameObservations h2 h3) :
    c.sameObservations h1 h3 :=
  ⟨fun s => (a.1 s).trans (b.1 s), fun u => (a.2.1 u).trans (b.2.1 u),
   fun u => (a.2.2.1 u).trans (b.2.2.1 u), (a.2.2.2).trans b.2.2.2⟩

theorem sameObservations_write_fresh (c : StoreHeap) (fresh : Nat)
    (hf : fresh ∉ c.liveAddrs) (h : Heap) (cell : HeapCell) :
    c.sameObservations (heapWrite h fresh cell) h := by
  have hf' : ∀ a, a ∈ c.liveAddrs → a ≠ fresh := fun a ha he => hf (he ▸ ha)
  refine ⟨?_, ?_, ?_, ?_⟩
  · intro slug
    unfold StoreHeap.observeBackend
    cases hl : alistLookup c.backendsAddr slug with
    | none => rfl
    | some a =>
        refine heapRead_write_ne h a fresh cell (hf' a ?_)
        unfold StoreHeap.liveAddrs
        exact List.mem_append.mpr (Or.inl (List.mem_append.mpr (Or.inl
          (List.mem_append.mpr (Or.inl (alistLookup_mem_values _ _ _ hl))))))
  · intro uid
    unfold StoreHeap.observeUserSubscribes
    cases hl : alistLookup c.userSubscribesAddr uid with
    | none => rfl
    | some a =>
        refine heapRead_write_ne h a fresh cell (hf' a ?_)
        unfold StoreHeap.liveAddrs
        refine List.mem_append.mpr (Or.inl (List.mem_append.mpr (Or.inl
          (List.mem_append.mpr (Or.inr ?_)))))
        exact alistLookup_mem_values _ _ _ hl
  · intro uid
    unfold StoreHeap.observeUserParams
    cases hl : alistLookup c.userParamsAddr uid with
    | none => rfl
    | some a =>
        refine heapRead_write_ne h a fresh cell (hf' a ?_)
        unfold StoreHeap.liveAddrs
        refine List.mem_append.mpr (Or.inl (List.mem_append.mpr (Or.inr ?_)))
        exact alistLookup_mem_values _ _ _ hl
  · unfold StoreHeap.observeAcmeDomains
    refine heapRead_write_ne h c.sslAcmeDomainsAddr fresh cell
      (hf' c.sslAcmeDomainsAddr ?_)
    unfold StoreHeap.liveAddrs
    refine List.mem_append.mpr (Or.inr ?_)
    simp

theorem write_write_fresh (c : StoreHeap) (fresh : Nat)
    (hf : fresh ∉ c.liveAddrs) (cell0 cell : HeapCell) :
    c.sameObservations (heapWrite (heapWrite c.heap fresh cell0) fresh cell)
      c.heap :=
  sameObservations_trans
    (sameObservations_write_fresh c fresh hf (heapWrite c.heap fresh cell0) cell)
    (sameObservations_write_fresh c fresh hf c.heap cell0)

/-- C6 (amended): `GetBackendBySlug` (`yaml.go`), `GetUserSubscribes`,
`GetUserParams` and `SSLAcmeDomains` hand back freshly allocated copies:
mutating any value they return leaves everything the live snapshot
references — its backend descriptors, subscription slices, param maps and
domain slice — unchanged. The watcher variant's `GetBackend`, however,
returns the live pointer held by the snapshot itself (an address in
`liveAddrs`), so mutating its result mutates the store's snapshot. -/
theorem defensive_copies :
    (∀ (c : StoreHeap) (fresh : Nat) (slug : String) (h2 : Heap) (addr : Nat),
      fresh ∉ c.liveAddrs →
      c.getBackendBySlugH fresh slug = Except.ok (h2, addr) →
      addr = fresh ∧
      ∀ cell, c.sameObservations (heapWrite h2 addr cell) c.heap) ∧
    (∀ (c : StoreHeap) (fresh : Nat) (uid : String),
      fresh ∉ c.liveAddrs →
      ∀ cell,
        c.sameObservations
          (heapWrite (c.getUserSubscribesH fresh uid).1
            (c.getUserSubscribesH fresh uid).2 cell) c.heap) ∧
    (∀ (c : StoreHeap) (fresh : Nat) (uid : String),
      fresh ∉ c.liveAddrs →
      ∀ cell,
        c.sameObservations
          (heapWrite (c.getUserParamsH fresh uid).1
            (c.getUserParamsH fresh uid).2 cell) c.heap) ∧
    (∀ (c : StoreHeap) (fresh : Nat),
      fresh ∉ c.liveAddrs →
      ∀ cell,
        c.sameObservations
          (heapWrite (c.sslAcmeDomainsH fresh).1 (c.sslAcmeDomainsH fresh).2 cell)
          c.heap) ∧
    (∀ (c : StoreHeap) (slug : String) (addr : Nat),
      c.getBackendH slug = Except.ok addr → addr ∈ c.liveAddrs) := by
  refine ⟨?_, ?_, ?_, ?_, ?_⟩
  · intro c fresh slug h2 addr hf hok
    unfold StoreHeap.getBackendBySlugH at hok
    split at hok
    · exact absurd hok (by simp)
    · split at hok
      · simp only [Except.ok.injEq, Prod.mk.injEq] at hok
        obtain ⟨he, ha⟩ := hok
        subst ha
        subst he
        exact ⟨rfl, fun cell => write_write_fresh c fresh hf _ cell⟩
      · exact absurd hok (by simp)
  · intro c fresh uid hf cell
    unfold StoreHeap.getUserSubscribesH
    split
    · exact write_write_fresh c fresh hf _ cell
    · split
      · exact write_write_fresh c fresh hf _ cell
      · exact write_write_fresh c fresh hf _ cell
  · intro c fresh uid hf cell
    unfold StoreHeap.getUserParamsH
    split
    · exact write_write_fresh c fresh hf _ cell
    · split
      · exact write_write_fresh c fresh hf _ cell
      · exact write_write_fresh c fresh hf _ cell
  · intro c fresh hf cell
    unfold StoreHeap.sslAcmeDomainsH
    split
    · exact write_write_fresh c fresh hf _ cell
    · exact write_write_fresh c fresh hf _ cell
  · intro c slug addr hok
    unfold StoreHeap.getBackendH at hok
    split at hok
    · exact absurd hok (by simp)
    · next a hl =>
        simp only [Except.ok.injEq] at hok
        subst hok
        unfold StoreHeap.liveAddrs
        exact List.mem_append.mpr (Or.inl (List.mem_append.mpr (Or.inl
          (List.mem_append.mpr (Or.inl (alistLookup_mem_values _ _ _ hl))))))

/-- A concrete pointer-level store: one backend `"dev"` whose descriptor
lives at address 0; the ACME domains slice lives at address 1. -/
def devStore : StoreHeap :=
  { heap := [(0, HeapCell.backendCell (Backend.mk "http://dev.example" "tok")),
             (1, HeapCell.strListCell ["dev.example"])]
    backendsAddr := [("dev", 0)]
    userSubscribesAddr := []
    userParamsAddr := []
    sslAcmeDomainsAddr := 1 }

/-- C6 counterexample: the watcher variant's `GetBackend` does not return a
copy. On `devStore` it returns the very address the snapshot holds for
`"dev"`; writing a new descriptor through that returned pointer changes
what the live snapshot holds for `"dev"`. -/
theorem defensive_copies_counterexample :
    StoreHeap.getBackendH devStore "dev" = Except.ok 0 ∧
    StoreHeap.observeBackend devStore devStore.heap "dev" =
      some (HeapCell.backendCell (Backend.mk "http://dev.example" "tok")) ∧
    StoreHeap.observeBackend devStore
        (heapWrite devStore.heap 0
          (HeapCell.backendCell (Backend.mk "http://evil.example" ""))) "dev" =
      some (HeapCell.backendCell (Backend.mk "http://evil.example" "")) ∧
    some (HeapCell.backendCell (Backend.mk "http://evil.example" "")) ≠
      some (HeapCell.backendCell (Backend.mk "http://dev.example" "tok")) := by
  refine ⟨rfl, rfl, rfl, by simp⟩

/-- C6 witness: on `devStore`, mutating the copy returned by
`GetBackendBySlug` (allocated at the unused address 5) leaves the
snapshot's view of `"dev"` unchanged, and the watcher `GetBackend` returns
a live snapshot address. -/
theorem defensive_copies_witness :
    (5 ∉ devStore.liveAddrs) ∧
    StoreHeap.getBackendBySlugH devStore 5 "dev" =
      Except.ok
        (heapWrite devStore.heap 5
          (HeapCell.backendCell (Backend.mk "http://dev.example" "tok")), 5) ∧
    StoreHeap.observeBackend devStore
        (heapWrite
          (heapWrite devStore.heap 5
            (HeapCell.backendCell (Backend.mk "http://dev.example" "tok"))) 5
          (HeapCell.backendCell (Backend.mk "http://evil.example" ""))) "dev" =
      StoreHeap.observeBackend devStore devStore.heap "dev" ∧
    (0 ∈ devStore.liveAddrs) := by
  have h5 : (5 : Nat) ∉ devStore.liveAddrs := by decide
  have hok : StoreHeap.getBackendBySlugH devStore 5 "dev" =
      Except.ok
        (heapWrite devStore.heap 5
          (HeapCell.backendCell (Backend.mk "http://dev.example" "tok")), 5) := rfl
  refine ⟨h5, hok, ?_, ?_⟩
  · exact ((defensive_copies.1 devStore 5 "dev" _ 5 h5 hok).2
      (HeapCell.backendCell (Backend.mk "http://evil.example" ""))).1 "dev"
  · exact defensive_copies.2.2.2.2 devStore "dev" 0 rfl

theorem applyTransition_terminal (t : A2ATask) (h : t.state.isTerminal = true)
    (next : TaskState) : applyTransition t next = t := by
  simp [applyTransition, h]

theorem foldl_applyTransition_terminal (t : A2ATask)
    (h : t.state.isTerminal = true) (reqs : List TaskState) :
    reqs.foldl applyTransition t = t := by
  induction reqs with
  | nil => rfl
  | cons r rest ih =>
      rw [List.foldl_cons, applyTransition_terminal t h r]
      exact ih

/-- C7: Task terminal finality. Once the task stored under an id is in a
terminal state, no sequence of requested transitions is accepted: after any
such sequence, `GetTask` for that id still reports the exact same task with
the same terminal state. -/
theorem task_terminal_finality (store : TaskStore) (id : String) (t : A2ATask)
    (hl : alistLookup store id = some t) (hterm : t.state.isTerminal = true)
    (reqs : List TaskState) :
    getTask (applyTransitions store id reqs) id = Except.ok t := by
  simp only [applyTransitions, hl]
  rw [foldl_applyTransition_terminal t hterm reqs]
  unfold getTask
  rw [alistLookup_insert_self]

/-- A concrete task that has reached the terminal state `Completed`. -/
def doneTask : A2ATask :=
  { id := "t1"
    sessionId := some "s1"
    state := TaskState.completed
    statusMessage := some "done"
    artifacts := ["hello.py"] }

/-- C7 witness: a completed task stays `Completed` under further requested
transitions. -/
theorem task_terminal_finality_witness :
    getTask
      (applyTransitions [("t1", doneTask)] "t1"
        [TaskState.working, TaskState.failed]) "t1" = Except.ok doneTask :=
  task_terminal_finality [("t1", doneTask)] "t1" doneTask rfl rfl
    [TaskState.working, TaskState.failed]

/-- C8: Cancel-after-terminal. When the task stored under an id is already
in a terminal state, `CancelTask` on that id signals `NotCancelableError` —
it never silently succeeds. -/
theorem cancel_after_terminal (store : TaskStore) (id : String) (t : A2ATask)
    (hl : alistLookup store id = some t) (hterm : t.state.isTerminal = true) :
    cancelTask store id = Except.error A2AError.notCancelable := by
  simp only [cancelTask, hl]
  simp [hterm]

/-- C8 witness: cancelling the already-`Completed` task returns
`NotCancelableError`. -/
theorem cancel_after_terminal_witness :
    cancelTask [("t1", doneTask)] "t1" = Except.error A2AError.notCancelable :=
  cancel_after_terminal [("t1", doneTask)] "t1" doneTask rfl rfl

/-- C9: Exactly-once final event. Whenever the backend's emitted sequence
contains a final `StatusUpdate` (the normal-termination case the claim
describes), the delivered sequence contains exactly one `final=true`
status event, it is the last delivered event, and no event is delivered
after it. -/
theorem subscribe_exactly_once_final (emitted : List StreamEvent)
    (h : emitted.any StreamEvent.isFinalStatus = true) :
    ((deliverEvents emitted).filter StreamEvent.isFinalStatus).length = 1 ∧
    ∃ pre e, deliverEvents emitted = pre ++ [e] ∧ e.isFinalStatus = true ∧
      ∀ x ∈ pre, x.isFinalStatus = false := by
  induction emitted with
  | nil => simp at h
  | cons e rest ih =>
      by_cases hf : e.isFinalStatus = true
      · refine ⟨?_, [], e, ?_, hf, by simp⟩
        · simp [deliverEvents, hf]
        · simp [deliverEvents, hf]
      · have h' : rest.any StreamEvent.isFinalStatus = true := by
          simp only [List.any_cons, Bool.or_eq_true] at h
          rcases h with h | h
          · exact absurd h hf
          · exact h
        obtain ⟨hcount, pre, e2, hdec, hfin, hpre⟩ := ih h'
        refine ⟨?_, e :: pre, e2, ?_, hfin, ?_⟩
        · simp [deliverEvents, hf, hcount]
        · simp [deliverEvents, hf, hdec]
        · intro x hx
          rcases List.mem_cons.mp hx with hx | hx
          · subst hx
            simpa using hf
          · exact hpre x hx

/-- C9 witness: a concrete emitted sequence with interleaved artifact and
status events, a final completed status, and a straggler the producer never
delivers. -/
theorem subscribe_exactly_once_final_witness :
    ((deliverEvents
        [StreamEvent.statusUpdate TaskState.working false,
         StreamEvent.artifactUpdate "index.html" 0,
         StreamEvent.statusUpdate TaskState.completed true,
         StreamEvent.artifactUpdate "late.css" 1]).filter
      StreamEvent.isFinalStatus).length = 1 ∧
    ∃ pre e,
      deliverEvents
        [StreamEvent.statusUpdate TaskState.working false,
         StreamEvent.artifactUpdate "index.html" 0,
         StreamEvent.statusUpdate TaskState.completed true,
         StreamEvent.artifactUpdate "late.css" 1] = pre ++ [e] ∧
      e.isFinalStatus = true ∧ ∀ x ∈ pre, x.isFinalStatus = false :=
  subscribe_exactly_once_final
    [StreamEvent.statusUpdate TaskState.working false,
     StreamEvent.artifactUpdate "index.html" 0,
     StreamEvent.statusUpdate TaskState.completed true,
     StreamEvent.artifactUpdate "late.css" 1] (by decide)
